import Mathlib

/-!
Shallow embedding of the cluster lifecycle orchestrator in
`src/ec2/spark_ec2.py` (spark-1.2.0), together with theorems settling the
frozen claims about it. Pure helpers of the script become Lean functions;
the stateful provider interactions (security groups, instances, spot
requests) become explicit state passing over a `Conn` record, with the
observable provider calls recorded in an `Event` trace. External provider
outcomes that the script only observes (whether a delete call succeeds on a
given attempt, what a revoke call returns, whether an ssh attempt exits
non-zero) are supplied by oracle functions, so the embedded control flow is
exactly the flow of the script.
-/

namespace SparkEC2

/-- Source of an ingress rule grant: another security group or a CIDR
address (boto `src_group` vs. a plain address argument). -/
inductive RuleSrc
  | group (name : String)
  | cidr (addr : String)
deriving DecidableEq, Repr

/-- One ingress rule of a security group, as the boto objects carry it:
an optional protocol, optional port range and a list of grants. -/
structure Rule where
  protocol : Option String
  fromPort : Option Int
  toPort : Option Int
  grants : List RuleSrc
deriving DecidableEq, Repr

/-- A named security group with its ingress rules. -/
structure SecGroup where
  name : String
  rules : List Rule
deriving DecidableEq, Repr

/-- A provider-managed compute instance: identifier, lifecycle state,
security-group memberships (by name) and the optional spot-request linkage
(`inst.spot_instance_request_id` in boto, a string or None). -/
structure Instance where
  id : String
  state : String
  groups : List String
  spotRequestId : Option String
deriving DecidableEq, Repr

/-- The provider state visible through the boto connection: all security
groups and all instances (grouped by reservation, as
`conn.get_all_instances()` returns them). -/
structure Conn where
  securityGroups : List SecGroup
  reservations : List (List Instance)
deriving DecidableEq, Repr

/-- Observable provider calls and user-visible outcomes, recorded in the
order the script performs them. -/
inductive Event
  | ensuredGroup (name : String) (created : Bool)
  | authorized (group : String) (rule : Rule)
  | located
  | exited (code : Nat)
  | spotRequested (zone : String) (count : Nat)
  | ranInstances (zone : String) (count : Nat)
  | canceledSpot (reqIds : List String)
  | warned (count : Nat)
  | fetchedGroups (names : List String)
  | revoked (group : String) (rule : Rule) (grant : RuleSrc)
  | slept (seconds : Nat)
  | deletedGroup (name : String) (ok : Bool)
  | reportedTeardownFailure
  | terminatedInst (id : String)
  | stoppedInst (id : String)
  | rebootedInst (id : String)
  | startedInst (id : String)
  | waitedForState (state : String)
deriving DecidableEq, Repr

/-- Lines 201-202: `is_active(instance)` — an instance counts as active iff
its state is pending, running, stopping or stopped. -/
def is_active (inst : Instance) : Bool :=
  (["pending", "running", "stopping", "stopped"] : List String).contains inst.state

/-- Lines 884-888: `get_partition(total, num_partitions, current_partitions)`.
Python 2 `/` on non-negative ints is floor division, which is `Nat` division
here; the Python test `(total % num_partitions) - current_partitions > 0`
agrees with truncated `Nat` subtraction on non-negative arguments, since a
negative Python difference and a truncated-to-zero `Nat` difference both
fail `> 0`. -/
def get_partition (total num_partitions current_partitions : Nat) : Nat :=
  let num_subordinates_this_zone := total / num_partitions
  if (total % num_partitions) - current_partitions > 0 then
    num_subordinates_this_zone + 1
  else
    num_subordinates_this_zone

/-- Outcome of the `ssh` function (lines 811-831): normal return after
`tries` failed attempts, the `UsageError` raised for exit status 255
(the RemoteAuthError of the spec), or re-raising the command error with
its exit code. -/
inductive SshOutcome
  | success (tries : Nat)
  | usageError
  | commandError (code : Nat)
deriving DecidableEq, Repr

/-- Lines 811-831, the body of `ssh`: `attempt n` is the outcome of the
n-th `subprocess.check_call` (counting from 0): `none` for exit status 0,
`some c` for a `CalledProcessError` with returncode `c`. `tries` starts at
0 and increments after each failed attempt that is retried; a failure when
`tries > 5` raises. -/
def sshLoop (attempt : Nat → Option Nat) (tries : Nat) : SshOutcome :=
  match attempt tries with
  | none => SshOutcome.success tries
  | some code =>
    if tries > 5 then
      if code = 255 then SshOutcome.usageError else SshOutcome.commandError code
    else
      sshLoop attempt (tries + 1)
termination_by 6 - tries
decreasing_by omega

/-- Lines 811-831: `ssh(host, opts, command)` starts its retry loop with
`tries = 0`. -/
def ssh (attempt : Nat → Option Nat) : SshOutcome :=
  sshLoop attempt 0

/-- Lines 188-195: `get_or_make_group(conn, name)` — filter all security
groups for an exact name match; return the first match unchanged, else
create a group with that name and no rules (boto appends it to the account
state and returns it). The event records whether a creation happened. -/
def get_or_make_group (conn : Conn) (name : String) : SecGroup × Conn × List Event :=
  match conn.securityGroups.filter (fun g => g.name == name) with
  | g :: _ => (g, conn, [Event.ensuredGroup name false])
  | [] =>
    let g : SecGroup := { name := name, rules := [] }
    (g, { conn with securityGroups := conn.securityGroups ++ [g] },
     [Event.ensuredGroup name true])

/-- A boto `group.authorize(...)` call: append the rule to the named group
in the provider state. -/
def authorize (conn : Conn) (groupName : String) (rule : Rule) : Conn :=
  { conn with
      securityGroups := conn.securityGroups.map (fun g =>
        if g.name == groupName then { g with rules := g.rules ++ [rule] } else g) }

/-- An `authorize(src_group=...)` rule: no protocol or ports, one group grant. -/
def srcGroupRule (src : String) : Rule :=
  { protocol := none, fromPort := none, toPort := none, grants := [RuleSrc.group src] }

/-- An `authorize('tcp', from, to, address)` rule. -/
def tcpRule (fromPort toPort : Int) (addr : String) : Rule :=
  { protocol := some "tcp", fromPort := some fromPort, toPort := some toPort,
    grants := [RuleSrc.cidr addr] }

/-- Lines 311-323 of `launch_cluster`: the main-group default rules, applied
only when the fetched `main_group` has an empty rule list (the group was
just now created). -/
def applyMainRules (conn : Conn) (main_group subordinate_group : SecGroup)
    (authorized_address : String) (ganglia : Bool) : Conn × List Event :=
  if main_group.rules == [] then
    let rules :=
      [srcGroupRule main_group.name, srcGroupRule subordinate_group.name,
       tcpRule 22 22 authorized_address, tcpRule 8080 8081 authorized_address,
       tcpRule 18080 18080 authorized_address, tcpRule 19999 19999 authorized_address,
       tcpRule 50030 50030 authorized_address, tcpRule 50070 50070 authorized_address,
       tcpRule 60070 60070 authorized_address, tcpRule 4040 4045 authorized_address] ++
      (if ganglia then [tcpRule 5080 5080 authorized_address] else [])
    (rules.foldl (fun c r => authorize c main_group.name r) conn,
     rules.map (fun r => Event.authorized main_group.name r))
  else (conn, [])

/-- Lines 324-332 of `launch_cluster`: the subordinate-group default rules,
applied only when the fetched `subordinate_group` has an empty rule list. -/
def applySubordinateRules (conn : Conn) (main_group subordinate_group : SecGroup)
    (authorized_address : String) : Conn × List Event :=
  if subordinate_group.rules == [] then
    let rules :=
      [srcGroupRule main_group.name, srcGroupRule subordinate_group.name,
       tcpRule 22 22 authorized_address, tcpRule 8080 8081 authorized_address,
       tcpRule 50060 50060 authorized_address, tcpRule 50075 50075 authorized_address,
       tcpRule 60060 60060 authorized_address, tcpRule 60075 60075 authorized_address]
    (rules.foldl (fun c r => authorize c subordinate_group.name r) conn,
     rules.map (fun r => Event.authorized subordinate_group.name r))
  else (conn, [])

/-- Lines 500-522: `get_existing_cluster(conn, opts, cluster_name,
die_on_error)`. The double loop over reservations and their active
instances appends each instance to the main list when the main group name
is among its group names, else to the subordinate list when the
subordinate group name is; this is the equivalent classification by
filtering the active instances in order. Returns `Except.error 1` for the
`sys.exit(1)` branch. -/
def get_existing_cluster (conn : Conn) (cluster_name : String) (die_on_error : Bool) :
    Except Nat (List Instance × List Instance) :=
  let active := (conn.reservations.map (fun res => res.filter is_active)).flatten
  let main_nodes := active.filter (fun inst =>
    inst.groups.contains (cluster_name ++ "-main"))
  let subordinate_nodes := active.filter (fun inst =>
    !(inst.groups.contains (cluster_name ++ "-main")) &&
      inst.groups.contains (cluster_name ++ "-subordinates"))
  if !main_nodes.isEmpty || !die_on_error then
    Except.ok (main_nodes, subordinate_nodes)
  else
    Except.error 1

/-- The options of `launch_cluster` and the lifecycle actions that the
embedded slices read. -/
structure Opts where
  authorized_address : String
  ganglia : Bool
  use_existing_main : Bool
  subordinates : Nat
  delete_groups : Bool
deriving DecidableEq, Repr

/-- Lines 307-340 of `launch_cluster`: the security-group phase followed by
the occupied-namespace check, in the order of the source — the two
`get_or_make_group` calls and both default-rule blocks come first, and only
then is `get_existing_cluster` consulted and `sys.exit(1)` taken when a
subordinate exists or a main exists without `--use-existing-main`. On the
non-exit path the updated provider state, both fetched groups and the
existing mains are returned for the rest of the launch. -/
def launchClusterGroupPhase (conn : Conn) (opts : Opts) (cluster_name : String) :
    List Event × Except Nat (Conn × SecGroup × SecGroup × List Instance) :=
  let r1 := get_or_make_group conn (cluster_name ++ "-main")
  let main_group := r1.1
  let r2 := get_or_make_group r1.2.1 (cluster_name ++ "-subordinates")
  let subordinate_group := r2.1
  let r3 := applyMainRules r2.2.1 main_group subordinate_group
    opts.authorized_address opts.ganglia
  let r4 := applySubordinateRules r3.1 main_group subordinate_group
    opts.authorized_address
  let events := r1.2.2 ++ r2.2.2 ++ r3.2 ++ r4.2 ++ [Event.located]
  match get_existing_cluster r4.1 cluster_name false with
  | Except.ok (existing_mains, existing_subordinates) =>
    if !existing_subordinates.isEmpty ||
        (!existing_mains.isEmpty && !opts.use_existing_main) then
      (events ++ [Event.exited 1], Except.error 1)
    else
      (events, Except.ok (r4.1, main_group, subordinate_group, existing_mains))
  | Except.error c => (events ++ [Event.exited c], Except.error c)

/-- Lines 380-402 of `launch_cluster`, the spot path: `i = 0; for zone in
zones:` compute the partition for index `i` and call
`conn.request_spot_instances(..., count=num_subordinates_this_zone, ...)`
unconditionally, then `i += 1`. The trace records one spot request per
zone with its count. -/
def launchSubordinatesSpot (subordinates : Nat) (zones : List String) : List Event :=
  zones.enum.map (fun p =>
    Event.spotRequested p.2 (get_partition subordinates zones.length p.1))

/-- Lines 436-456 of `launch_cluster`, the on-demand path: same loop, but
`image.run(...)` is issued only under `if num_subordinates_this_zone > 0`. -/
def launchSubordinatesOnDemand (subordinates : Nat) (zones : List String) : List Event :=
  (zones.enum.map (fun p =>
    let num_subordinates_this_zone := get_partition subordinates zones.length p.1
    if num_subordinates_this_zone > 0 then
      [Event.ranInstances p.2 num_subordinates_this_zone]
    else [])).flatten

/-- Lines 426-435 of `launch_cluster`: the `except:` handler of the spot
polling loop. It cancels all issued request ids in one
`conn.cancel_spot_instance_requests(my_req_ids)` call, re-queries the
cluster via `get_existing_cluster(..., die_on_error=False)`, prints a
warning with the running count only when that count is non-zero
(Python truthiness of `if running:`), and then calls `sys.exit(0)`.
Returns the event trace and the process exit status. -/
def spotInterruptHandler (conn : Conn) (cluster_name : String)
    (my_req_ids : List String) : List Event × Nat :=
  match get_existing_cluster conn cluster_name false with
  | Except.ok (main_nodes, subordinate_nodes) =>
    let running := main_nodes.length + subordinate_nodes.length
    (Event.canceledSpot my_req_ids :: Event.located ::
      ((if running ≠ 0 then [Event.warned running] else []) ++ [Event.exited 0]), 0)
  | Except.error c =>
    (Event.canceledSpot my_req_ids :: Event.located :: [Event.exited c], c)

/-- Provider outcomes that the teardown loop of `real_main` (destroy with
`--delete-groups`, lines 961-997) only observes: the boolean a
`group.revoke(...)` call returns on a given attempt (the source notes it
can be True even when nothing was deleted), and whether
`conn.delete_security_group(name)` succeeds on a given attempt
(eventual-consistency lag makes this vary between attempts). -/
structure TeardownOracle where
  revokeRet : Nat → String → Rule → RuleSrc → Bool
  deleteOk : Nat → String → Bool

/-- Provider effect of a revoke call: remove the grant from the matching
rule of the named group, dropping a rule left with no grants. -/
def revokeGrant (st : List SecGroup) (gname : String) (r : Rule)
    (grant : RuleSrc) : List SecGroup :=
  st.map (fun g =>
    if g.name == gname then
      { g with
          rules := (g.rules.map (fun r2 =>
            if r2 == r then
              { r2 with grants := r2.grants.filter (fun x => !(x == grant)) }
            else r2)).filter (fun r2 => !r2.grants.isEmpty) }
    else g)

/-- One body of the `while attempt <= 3` loop, lines 963-991: fetch the
groups whose names are targeted, revoke every grant of every rule of every
fetched group (folding the revoke returns into `success` with `&=`), sleep
30 seconds, then try to delete each fetched group, setting `success` to
false on each failure. Returns the events of the attempt, the provider
state after it and the final `success` flag. -/
def teardownAttempt (o : TeardownOracle) (a : Nat) (group_names : List String)
    (st : List SecGroup) : List Event × List SecGroup × Bool :=
  let groups := st.filter (fun g => group_names.contains g.name)
  let triples := (groups.map (fun g =>
    (g.rules.map (fun r => r.grants.map (fun gr => (g.name, r, gr)))).flatten)).flatten
  let st1 := triples.foldl (fun s t => revokeGrant s t.1 t.2.1 t.2.2) st
  let success1 := triples.foldl (fun b t => b && o.revokeRet a t.1 t.2.1 t.2.2) true
  let revokeEvents := triples.map (fun t => Event.revoked t.1 t.2.1 t.2.2)
  let st2 := groups.foldl (fun s g =>
    if o.deleteOk a g.name then s.filter (fun x => !(x.name == g.name)) else s) st1
  let success2 := groups.foldl (fun b g => b && o.deleteOk a g.name) success1
  let deleteEvents := groups.map (fun g => Event.deletedGroup g.name (o.deleteOk a g.name))
  (Event.fetchedGroups (groups.map (fun g => g.name)) ::
     revokeEvents ++ Event.slept 30 :: deleteEvents,
   st2, success2)

/-- The `while attempt <= 3` loop itself (lines 961-993): run an attempt;
break on success, otherwise increment `attempt` and run again while
`attempt <= 3`. Once the bound is passed the last `success` value (false,
since the loop only continues on failure) is what the code after the loop
sees. -/
def teardownLoop (o : TeardownOracle) (group_names : List String)
    (a : Nat) (st : List SecGroup) : List Event × List SecGroup × Bool :=
  if a ≤ 3 then
    let r := teardownAttempt o a group_names st
    if r.2.2 then r
    else
      let rec2 := teardownLoop o group_names (a + 1) r.2.1
      (r.1 ++ rec2.1, rec2.2.1, rec2.2.2)
  else ([], st, false)
termination_by 4 - a
decreasing_by omega

/-- Lines 961-997: the whole teardown of the two security groups, starting
at `attempt = 1`; when the loop ends without success the partial-failure
message is printed (lines 995-997). -/
def teardownGroups (o : TeardownOracle) (group_names : List String)
    (st : List SecGroup) : List Event × List SecGroup × Bool :=
  let r := teardownLoop o group_names 1 st
  if r.2.2 then r
  else (r.1 ++ [Event.reportedTeardownFailure], r.2.1, false)

/-- Python truthiness of `inst.spot_instance_request_id` (None or a string):
None and the empty string are falsy. -/
def optStrTruthy : Option String → Bool
  | none => false
  | some s => !(s == "")

/-- Lines 934-997 of `real_main`, the `destroy` action: locate the cluster
(die_on_error=False) to print the doomed instances, prompt, and only when
the response is exactly "y" terminate every main and subordinate and, with
`--delete-groups`, wait for the `terminated` state and tear the two groups
down. Any other response falls through and the process finishes with
status 0. -/
def destroyAction (conn : Conn) (opts : Opts) (cluster_name : String)
    (response : String) (o : TeardownOracle) : List Event × Nat :=
  match get_existing_cluster conn cluster_name false with
  | Except.ok (main_nodes, subordinate_nodes) =>
    if response == "y" then
      let ev := main_nodes.map (fun inst => Event.terminatedInst inst.id) ++
        subordinate_nodes.map (fun inst => Event.terminatedInst inst.id)
      if opts.delete_groups then
        let t := teardownGroups o
          [cluster_name ++ "-main", cluster_name ++ "-subordinates"]
          conn.securityGroups
        (Event.located :: ev ++ Event.waitedForState "terminated" :: t.1, 0)
      else (Event.located :: ev, 0)
    else ([Event.located], 0)
  | Except.error c => ([Event.located, Event.exited c], c)

/-- Lines 1009-1021 of `real_main`, the `reboot-subordinates` action:
prompt first; only on the exact response "y" locate the cluster and reboot
every subordinate whose state is not shutting-down or terminated. -/
def rebootSubordinatesAction (conn : Conn) (cluster_name : String)
    (response : String) : List Event × Nat :=
  if response == "y" then
    match get_existing_cluster conn cluster_name false with
    | Except.ok (_, subordinate_nodes) =>
      (Event.located ::
        (subordinate_nodes.map (fun inst =>
          if (["shutting-down", "terminated"] : List String).contains inst.state then []
          else [Event.rebootedInst inst.id])).flatten, 0)
    | Except.error c => ([Event.located, Event.exited c], c)
  else ([], 0)

/-- Lines 1027-1048 of `real_main`, the `stop` action: prompt first; only
on the exact response "y" locate the cluster, stop every main not
shutting-down or terminated, and for each such subordinate terminate it
when it carries a (truthy) spot request id, else stop it. -/
def stopAction (conn : Conn) (cluster_name : String)
    (response : String) : List Event × Nat :=
  if response == "y" then
    match get_existing_cluster conn cluster_name false with
    | Except.ok (main_nodes, subordinate_nodes) =>
      let mainEv := (main_nodes.map (fun inst =>
        if (["shutting-down", "terminated"] : List String).contains inst.state then []
        else [Event.stoppedInst inst.id])).flatten
      let subordinateEv := (subordinate_nodes.map (fun inst =>
        if (["shutting-down", "terminated"] : List String).contains inst.state then []
        else if optStrTruthy inst.spotRequestId then [Event.terminatedInst inst.id]
        else [Event.stoppedInst inst.id])).flatten
      (Event.located :: mainEv ++ subordinateEv, 0)
    | Except.error c => ([Event.located, Event.exited c], c)
  else ([], 0)

/-! ## Theorems -/

/-- Closed form of `get_partition`: the base share plus one extra for the
first `total % num_partitions` indices. -/
theorem get_partition_eq (total num_partitions i : Nat) :
    get_partition total num_partitions i =
      total / num_partitions + if i < total % num_partitions then 1 else 0 := by
  simp only [get_partition]
  by_cases h : i < total % num_partitions
  · rw [if_pos (by omega), if_pos h]
  · rw [if_neg (by omega), if_neg h]
    omega

theorem sum_lt_indicator (n m : Nat) (h : m ≤ n) :
    (Finset.range n).sum (fun i => if i < m then 1 else 0) = m := by
  rw [Finset.sum_boole]
  have : (Finset.range n).filter (fun i => i < m) = Finset.range m := by
    ext x
    simp only [Finset.mem_filter, Finset.mem_range]
    omega
  rw [this, Finset.card_range]
  simp

/-- C3: for every total and every positive number of zones, the
`get_partition` results over zone indices 0..numZones-1 sum to exactly the
total, each zone receives the base share `total / numZones` plus one extra
exactly for the first `total % numZones` indices, and any two results
differ by at most 1. -/
theorem zone_partition_correct (total numZones : Nat) (h : 1 ≤ numZones) :
    (Finset.range numZones).sum (fun i => get_partition total numZones i) = total ∧
    (∀ i, get_partition total numZones i =
      total / numZones + if i < total % numZones then 1 else 0) ∧
    (∀ i j, i < numZones → j < numZones →
      get_partition total numZones i - get_partition total numZones j ≤ 1) := by
  refine ⟨?_, fun i => get_partition_eq total numZones i, ?_⟩
  · have hmod : total % numZones ≤ numZones :=
      le_of_lt (Nat.mod_lt _ (by omega))
    calc (Finset.range numZones).sum (fun i => get_partition total numZones i)
        = (Finset.range numZones).sum
            (fun i => total / numZones + if i < total % numZones then 1 else 0) := by
          exact Finset.sum_congr rfl (fun i _ => get_partition_eq total numZones i)
      _ = numZones * (total / numZones) +
            (Finset.range numZones).sum (fun i => if i < total % numZones then 1 else 0) := by
          rw [Finset.sum_add_distrib, Finset.sum_const, Finset.card_range, smul_eq_mul]
      _ = numZones * (total / numZones) + total % numZones := by
          rw [sum_lt_indicator _ _ hmod]
      _ = total := by
          have := Nat.div_add_mod total numZones
          omega
  · intro i j _ _
    rw [get_partition_eq, get_partition_eq]
    by_cases hi : i < total % numZones <;> by_cases hj : j < total % numZones <;>
      simp [hi, hj]

/-- C3 witness: the theorem at total = 7 and numZones = 3. -/
theorem zone_partition_correct_witness :
    (Finset.range 3).sum (fun i => get_partition 7 3 i) = 7 ∧
    (∀ i, get_partition 7 3 i = 7 / 3 + if i < 7 % 3 then 1 else 0) ∧
    (∀ i j, i < 3 → j < 3 → get_partition 7 3 i - get_partition 7 3 j ≤ 1) :=
  zone_partition_correct 7 3 (by decide)

/-- C1 (code bug): the `ssh` retry loop raises only when a failure arrives
with `tries > 5`, so it retries a failing command SIX times (seven total
attempts), not the five retries its own comment (lines 809-810) and the
spec state. First conjunct: a command failing on attempts 1..6 and
succeeding on attempt 7 is still retried and succeeds after 6 retries,
where the documented behavior would have raised after the 6th failed
attempt. The remaining conjuncts check the parts of the claim the code
does satisfy: failing 5 times then succeeding on the 6th attempt succeeds
with exactly 5 retries, exhausting all attempts with exit status 255
raises the distinguished UsageError, and any other final exit status
re-raises the command error with its code. -/
theorem ssh_retry_off_by_one :
    ssh (fun n => if n < 6 then some 1 else none) = SshOutcome.success 6 ∧
    ssh (fun n => if n < 5 then some 1 else none) = SshOutcome.success 5 ∧
    ssh (fun _ => some 255) = SshOutcome.usageError ∧
    ssh (fun _ => some 7) = SshOutcome.commandError 7 := by
  refine ⟨?_, ?_, ?_, ?_⟩ <;> simp [ssh, sshLoop]

/-- Any instance in either returned list of `get_existing_cluster` passed
the `is_active` filter. -/
theorem gec_mem_active (conn : Conn) (cluster_name : String) (d : Bool)
    (mains subs : List Instance)
    (h : get_existing_cluster conn cluster_name d = Except.ok (mains, subs)) :
    ∀ inst ∈ mains ++ subs, is_active inst = true := by
  intro inst hmem
  simp only [get_existing_cluster] at h
  split at h
  · injection h with h2
    rw [Prod.mk.injEq] at h2
    obtain ⟨hm, hs⟩ := h2
    rw [List.mem_append] at hmem
    have hin : inst ∈ (List.map (fun res => List.filter is_active res)
        conn.reservations).flatten := by
      rcases hmem with hmem | hmem
      · exact List.mem_of_mem_filter (hm ▸ hmem)
      · exact List.mem_of_mem_filter (hs ▸ hmem)
    rw [List.mem_flatten] at hin
    obtain ⟨l, hl, hinst⟩ := hin
    rw [List.mem_map] at hl
    obtain ⟨res, _, rfl⟩ := hl
    exact List.of_mem_filter hinst
  · exact absurd h (by simp)

/-- The two lists `get_existing_cluster` returns are the main-group and
subordinate-group filters of the active instances. -/
theorem gec_ok_lists (conn : Conn) (cluster_name : String) (d : Bool)
    (mains subs : List Instance)
    (h : get_existing_cluster conn cluster_name d = Except.ok (mains, subs)) :
    mains = ((conn.reservations.map (fun res => res.filter is_active)).flatten).filter
      (fun inst => inst.groups.contains (cluster_name ++ "-main")) ∧
    subs = ((conn.reservations.map (fun res => res.filter is_active)).flatten).filter
      (fun inst => !(inst.groups.contains (cluster_name ++ "-main")) &&
        inst.groups.contains (cluster_name ++ "-subordinates")) := by
  simp only [get_existing_cluster] at h
  split at h
  · injection h with h2
    rw [Prod.mk.injEq] at h2
    exact ⟨h2.1.symm, h2.2.symm⟩
  · exact absurd h (by simp)

/-- C7: `get_existing_cluster` never returns an instance whose lifecycle
state is terminated or shutting-down in either list; every returned member
is in one of the four active states. -/
theorem cluster_locator_active_only (conn : Conn) (cluster_name : String) (d : Bool)
    (mains subs : List Instance)
    (h : get_existing_cluster conn cluster_name d = Except.ok (mains, subs)) :
    ∀ inst ∈ mains ++ subs,
      inst.state ≠ "terminated" ∧ inst.state ≠ "shutting-down" ∧
      inst.state ∈ (["pending", "running", "stopping", "stopped"] : List String) := by
  intro inst hmem
  have ha := gec_mem_active conn cluster_name d mains subs h inst hmem
  simp only [is_active, List.contains, List.elem_eq_mem, decide_eq_true_eq] at ha
  refine ⟨?_, ?_, ha⟩ <;> intro he <;> rw [he] at ha <;> simp at ha

/-- The concrete instance and provider state used as C7 witness input. -/
def instOneMain : Instance :=
  { id := "i-1", state := "running", groups := ["c-main"], spotRequestId := none }

def connOneMain : Conn :=
  { securityGroups := [], reservations := [[instOneMain]] }

/-- C7 witness: the theorem applied to a one-instance cluster. -/
theorem cluster_locator_active_only_witness :
    instOneMain.state ≠ "terminated" ∧ instOneMain.state ≠ "shutting-down" ∧
    instOneMain.state ∈ (["pending", "running", "stopping", "stopped"] : List String) :=
  cluster_locator_active_only connOneMain "c" true [instOneMain] [] (by rfl)
    instOneMain (by simp)

/-- C9: an active instance belonging to both of the cluster groups is
classified as a main only (the elif gives the main group precedence), and
no instance value can appear in both returned lists. -/
theorem cluster_locator_main_precedence (conn : Conn) (cluster_name : String) (d : Bool)
    (mains subs : List Instance)
    (h : get_existing_cluster conn cluster_name d = Except.ok (mains, subs)) :
    (∀ inst ∈ mains, inst ∉ subs) ∧
    (∀ inst ∈ conn.reservations.flatten, is_active inst = true →
      inst.groups.contains (cluster_name ++ "-main") = true →
      inst.groups.contains (cluster_name ++ "-subordinates") = true →
      inst ∈ mains ∧ inst ∉ subs) := by
  obtain ⟨hm, hs⟩ := gec_ok_lists conn cluster_name d mains subs h
  constructor
  · intro inst hmem hcontra
    rw [hm] at hmem
    rw [hs] at hcontra
    have h1 := List.of_mem_filter hmem
    have h2 := List.of_mem_filter hcontra
    simp at h2
    simp only [List.contains, List.elem_eq_mem, decide_eq_true_eq] at h1
    exact h2.1 h1
  · intro inst hres hact hmain _hsub
    have hactive : inst ∈ (conn.reservations.map
        (fun res => res.filter is_active)).flatten := by
      rw [List.mem_flatten] at hres ⊢
      obtain ⟨res, hres1, hres2⟩ := hres
      exact ⟨res.filter is_active, List.mem_map.mpr ⟨res, hres1, rfl⟩,
        List.mem_filter.mpr ⟨hres2, hact⟩⟩
    constructor
    · rw [hm]
      exact List.mem_filter.mpr ⟨hactive, hmain⟩
    · intro hcontra
      rw [hs] at hcontra
      have h2 := List.of_mem_filter hcontra
      simp at h2
      simp only [List.contains, List.elem_eq_mem, decide_eq_true_eq] at hmain
      exact h2.1 hmain

/-- An instance carrying both group memberships, for the C9 witness. -/
def instBothGroups : Instance :=
  { id := "i-2", state := "running", groups := ["c-main", "c-subordinates"],
    spotRequestId := none }

def connBothGroups : Conn :=
  { securityGroups := [], reservations := [[instBothGroups]] }

/-- C9 witness: the dual-membership instance lands in the main list and not
the subordinate list. -/
theorem cluster_locator_main_precedence_witness :
    instBothGroups ∈ [instBothGroups] ∧ instBothGroups ∉ ([] : List Instance) :=
  (cluster_locator_main_precedence connBothGroups "c" true [instBothGroups] []
      (by rfl)).2 instBothGroups (by simp [connBothGroups]) (by rfl) (by rfl) (by rfl)

/-- C8 counterexample: requesting 1 subordinate across 2 zones on the spot
path issues a spot request with count 0 for the second zone — the code has
no zero-count guard on the spot path, so the claim that a zero-placement
zone issues no request is false there. -/
theorem spot_zero_zone_counterexample :
    launchSubordinatesSpot 1 ["a", "b"] =
      [Event.spotRequested "a" 1, Event.spotRequested "b" 0] ∧
    Event.spotRequested "b" 0 ∈ launchSubordinatesSpot 1 ["a", "b"] := by
  constructor
  · rfl
  · decide

/-- C8 amended: the on-demand path indeed issues no run request for a
zero-placement zone, but the spot path issues exactly one spot request per
zone, including count-zero requests for zero-placement zones. -/
theorem acquisition_zero_zone_amended (subordinates : Nat) (zones : List String) :
    (∀ z n, Event.ranInstances z n ∈ launchSubordinatesOnDemand subordinates zones →
      0 < n) ∧
    (launchSubordinatesSpot subordinates zones).length = zones.length ∧
    (∀ p ∈ zones.enum,
      Event.spotRequested p.2 (get_partition subordinates zones.length p.1) ∈
        launchSubordinatesSpot subordinates zones) := by
  refine ⟨?_, ?_, ?_⟩
  · intro z n hmem
    simp only [launchSubordinatesOnDemand, List.mem_flatten] at hmem
    obtain ⟨l, hl, hev⟩ := hmem
    rw [List.mem_map] at hl
    obtain ⟨p, _, rfl⟩ := hl
    by_cases hpos : get_partition subordinates zones.length p.1 > 0
    · simp only [hpos, if_pos, List.mem_singleton] at hev
      injection hev with h1 h2
      omega
    · simp [hpos] at hev
  · simp [launchSubordinatesSpot]
  · intro p hp
    simp only [launchSubordinatesSpot, List.mem_map]
    exact ⟨p, hp, rfl⟩

/-- C6: `get_or_make_group` returns a pre-existing group of the same name
unchanged (no state change, no creation event), calling it twice with the
same name yields the same group and the same state as calling it once, and
both default-rule blocks are no-ops on a group that already has at least
one rule. -/
theorem ensure_group_idempotent (conn : Conn) (name : String) :
    (∀ g rest, conn.securityGroups.filter (fun x => x.name == name) = g :: rest →
      get_or_make_group conn name = (g, conn, [Event.ensuredGroup name false])) ∧
    ((get_or_make_group (get_or_make_group conn name).2.1 name).1 =
        (get_or_make_group conn name).1 ∧
      (get_or_make_group (get_or_make_group conn name).2.1 name).2.1 =
        (get_or_make_group conn name).2.1) ∧
    (∀ mg sg addr gang, mg.rules ≠ [] →
      applyMainRules conn mg sg addr gang = (conn, [])) ∧
    (∀ mg sg addr, sg.rules ≠ [] →
      applySubordinateRules conn mg sg addr = (conn, [])) := by
  refine ⟨?_, ?_, ?_, ?_⟩
  · intro g rest hfilter
    simp only [get_or_make_group, hfilter]
  · rcases hfilter : conn.securityGroups.filter (fun x => x.name == name) with _ | ⟨g, rest⟩
    · have h1 : get_or_make_group conn name =
          ({ name := name, rules := [] },
           { conn with securityGroups := conn.securityGroups ++
              [{ name := name, rules := [] }] },
           [Event.ensuredGroup name true]) := by
        simp only [get_or_make_group, hfilter]
      rw [h1]
      have hfilter2 : ({ conn with securityGroups := conn.securityGroups ++
          [{ name := name, rules := [] }] } : Conn).securityGroups.filter
            (fun x => x.name == name) = [{ name := name, rules := [] }] := by
        simp only [List.filter_append, hfilter]
        simp
      simp only [get_or_make_group, hfilter2]
      exact ⟨trivial, trivial⟩
    · have h1 : get_or_make_group conn name = (g, conn, [Event.ensuredGroup name false]) := by
        simp only [get_or_make_group, hfilter]
      rw [h1]
      simp only [get_or_make_group, hfilter]
      exact ⟨trivial, trivial⟩
  · intro mg sg addr gang hne
    simp only [applyMainRules]
    rw [if_neg (by simpa using hne)]
  · intro mg sg addr hne
    simp only [applySubordinateRules]
    rw [if_neg (by simpa using hne)]

/-- Holds of the cancel events recorded by the spot interrupt handler. -/
def isCancelEvent : Event → Bool
  | Event.canceledSpot _ => true
  | _ => false

/-- With `die_on_error = False`, `get_existing_cluster` never exits. -/
theorem gec_false_isOk (conn : Conn) (cluster_name : String) :
    ∃ p, get_existing_cluster conn cluster_name false = Except.ok p := by
  simp [get_existing_cluster]

/-- C2 counterexample: with one already-running subordinate, the interrupt
handler cancels the issued ids, warns about 1 running instance — and then
exits with status 0, not the non-zero status the claim requires. -/
theorem spot_interrupt_exit_zero_counterexample :
    (spotInterruptHandler connOneMain "c" ["sir-1", "sir-2"]).2 = 0 ∧
    (spotInterruptHandler connOneMain "c" ["sir-1", "sir-2"]).1 =
      [Event.canceledSpot ["sir-1", "sir-2"], Event.located, Event.warned 1,
       Event.exited 0] := by
  constructor
  · rfl
  · rfl

/-- C2 amended: on any exception in the spot polling loop the handler
cancels every issued request id exactly once via one explicit cancel call,
re-queries the cluster membership, warns with the count of instances that
already started whenever that count is non-zero (and stays silent when it
is zero) — and then terminates the process with exit status 0, swallowing
the failure rather than propagating a non-zero status. -/
theorem spot_interrupt_swallows_failure (conn : Conn) (cluster_name : String)
    (ids : List String) :
    (spotInterruptHandler conn cluster_name ids).2 = 0 ∧
    (spotInterruptHandler conn cluster_name ids).1.countP isCancelEvent = 1 ∧
    Event.canceledSpot ids ∈ (spotInterruptHandler conn cluster_name ids).1 ∧
    (∀ mains subs,
      get_existing_cluster conn cluster_name false = Except.ok (mains, subs) →
      (mains.length + subs.length ≠ 0 →
        Event.warned (mains.length + subs.length) ∈
          (spotInterruptHandler conn cluster_name ids).1) ∧
      (mains.length + subs.length = 0 →
        ∀ k, Event.warned k ∉ (spotInterruptHandler conn cluster_name ids).1)) := by
  obtain ⟨⟨mains0, subs0⟩, hok⟩ := gec_false_isOk conn cluster_name
  refine ⟨?_, ?_, ?_, ?_⟩
  · simp only [spotInterruptHandler, hok]
  · simp only [spotInterruptHandler, hok]
    by_cases hrun : mains0.length + subs0.length ≠ 0 <;>
      simp [hrun, isCancelEvent, List.countP_cons, List.countP_append]
  · simp only [spotInterruptHandler, hok]
    exact List.mem_cons_self _ _
  · intro mains subs h
    rw [hok] at h
    injection h with h2
    rw [Prod.mk.injEq] at h2
    obtain ⟨rfl, rfl⟩ := h2
    constructor
    · intro hne
      simp only [spotInterruptHandler, hok]
      simp [hne]
    · intro hz k
      simp only [spotInterruptHandler, hok]
      simp [hz]

/-- C10: for the three confirmation-gated actions, any response other than
exactly "y" produces no terminate, stop, reboot or group-deletion call and
finishes with exit status 0 (destroy still performs its read-only locate
before prompting); and with the response "y" the destroy action terminates
every located main. -/
theorem confirmation_gate (conn : Conn) (opts : Opts) (cluster_name response : String)
    (o : TeardownOracle) :
    (response ≠ "y" →
      destroyAction conn opts cluster_name response o = ([Event.located], 0) ∧
      rebootSubordinatesAction conn cluster_name response = ([], 0) ∧
      stopAction conn cluster_name response = ([], 0)) ∧
    (∀ mains subs,
      get_existing_cluster conn cluster_name false = Except.ok (mains, subs) →
      ∀ inst ∈ mains,
        Event.terminatedInst inst.id ∈ (destroyAction conn opts cluster_name "y" o).1) := by
  obtain ⟨⟨mains0, subs0⟩, hok⟩ := gec_false_isOk conn cluster_name
  constructor
  · intro hne
    have hbeq : (response == "y") = false := by
      simp [hne]
    refine ⟨?_, ?_, ?_⟩
    · simp only [destroyAction, hok, hbeq]
      simp
    · simp only [rebootSubordinatesAction, hbeq]
      simp
    · simp only [stopAction, hbeq]
      simp
  · intro mains subs h inst hmem
    rw [hok] at h
    injection h with h2
    rw [Prod.mk.injEq] at h2
    obtain ⟨rfl, rfl⟩ := h2
    simp only [destroyAction, hok]
    rw [if_pos (by rfl)]
    by_cases hdg : opts.delete_groups <;> simp [hdg, List.mem_map] <;>
      exact Or.inl ⟨inst, hmem, rfl⟩

theorem gec_congr (c1 c2 : Conn) (n : String) (d : Bool)
    (h : c1.reservations = c2.reservations) :
    get_existing_cluster c1 n d = get_existing_cluster c2 n d := by
  simp only [get_existing_cluster, h]

theorem gomg_reservations (conn : Conn) (name : String) :
    (get_or_make_group conn name).2.1.reservations = conn.reservations := by
  unfold get_or_make_group
  split <;> rfl

theorem foldl_authorize_reservations (rules : List Rule) (gname : String) :
    ∀ c : Conn, (rules.foldl (fun c r => authorize c gname r) c).reservations =
      c.reservations := by
  induction rules with
  | nil => intro c; rfl
  | cons r rs ih => intro c; rw [List.foldl_cons, ih]; rfl

theorem applyMainRules_reservations (c : Conn) (mg sg : SecGroup) (aa : String)
    (g : Bool) : (applyMainRules c mg sg aa g).1.reservations = c.reservations := by
  simp only [applyMainRules]
  split
  · exact foldl_authorize_reservations _ _ c
  · rfl

theorem applySubordinateRules_reservations (c : Conn) (mg sg : SecGroup)
    (aa : String) : (applySubordinateRules c mg sg aa).1.reservations = c.reservations := by
  simp only [applySubordinateRules]
  split
  · exact foldl_authorize_reservations _ _ c
  · rfl

theorem gec_gomg (c : Conn) (gname n : String) (d : Bool) :
    get_existing_cluster (get_or_make_group c gname).2.1 n d =
      get_existing_cluster c n d :=
  gec_congr _ _ _ _ (gomg_reservations c gname)

theorem gec_applyMain (c : Conn) (mg sg : SecGroup) (aa : String) (g : Bool)
    (n : String) (d : Bool) :
    get_existing_cluster (applyMainRules c mg sg aa g).1 n d =
      get_existing_cluster c n d :=
  gec_congr _ _ _ _ (applyMainRules_reservations c mg sg aa g)

theorem gec_applySub (c : Conn) (mg sg : SecGroup) (aa : String)
    (n : String) (d : Bool) :
    get_existing_cluster (applySubordinateRules c mg sg aa).1 n d =
      get_existing_cluster c n d :=
  gec_congr _ _ _ _ (applySubordinateRules_reservations c mg sg aa)

theorem gomg_events (conn : Conn) (name : String) :
    ∃ c, (get_or_make_group conn name).2.2 = [Event.ensuredGroup name c] := by
  unfold get_or_make_group
  split
  · exact ⟨false, rfl⟩
  · exact ⟨true, rfl⟩

theorem gomg_events_forall (Q : Event → Prop) (conn : Conn) (name : String)
    (hq : ∀ c, Q (Event.ensuredGroup name c)) :
    ∀ e ∈ (get_or_make_group conn name).2.2, Q e := by
  intro e he
  obtain ⟨c, hc⟩ := gomg_events conn name
  rw [hc] at he
  simp at he
  rw [he]
  exact hq c

theorem applyMainRules_events (c : Conn) (mg sg : SecGroup) (aa : String) (g : Bool) :
    ∀ e ∈ (applyMainRules c mg sg aa g).2, ∃ gn r, e = Event.authorized gn r := by
  simp only [applyMainRules]
  split
  · intro e he
    rw [List.mem_map] at he
    obtain ⟨r, _, rfl⟩ := he
    exact ⟨_, _, rfl⟩
  · intro e he
    simp at he

theorem applySubordinateRules_events (c : Conn) (mg sg : SecGroup) (aa : String) :
    ∀ e ∈ (applySubordinateRules c mg sg aa).2, ∃ gn r, e = Event.authorized gn r := by
  simp only [applySubordinateRules]
  split
  · intro e he
    rw [List.mem_map] at he
    obtain ⟨r, _, rfl⟩ := he
    exact ⟨_, _, rfl⟩
  · intro e he
    simp at he

theorem setup_decomp (Q : Event → Prop) (A B C D : List Event)
    (hA : ∀ e ∈ A, Q e) (hB : ∀ e ∈ B, Q e) (hC : ∀ e ∈ C, Q e)
    (hD : ∀ e ∈ D, Q e) :
    ∃ pre, A ++ B ++ C ++ D ++ [Event.located] ++ [Event.exited 1] =
        pre ++ [Event.located, Event.exited 1] ∧ ∀ e ∈ pre, Q e := by
  refine ⟨A ++ B ++ C ++ D, by simp, ?_⟩
  intro e he
  simp only [List.mem_append] at he
  rcases he with ((he | he) | he) | he
  exacts [hA e he, hB e he, hC e he, hD e he]

/-- A worker instance occupying the cluster namespace, and the state and
options of the C4 concrete launch attempt. -/
def instWorkerOccupied : Instance :=
  { id := "i-3", state := "running", groups := ["c-subordinates"], spotRequestId := none }

def connOccupied : Conn :=
  { securityGroups := [], reservations := [[instWorkerOccupied]] }

def optsLaunch : Opts :=
  { authorized_address := "0.0.0.0/0", ganglia := true, use_existing_main := false,
    subordinates := 1, delete_groups := false }

/-- C4 counterexample: launching into a namespace that already holds a
worker still creates both security groups (creation events with
`created = true`) and applies rules before the occupied check exits — so
the claim that an occupied launch never creates groups or rules is false:
the code ensures groups and rules first and checks occupancy second. -/
theorem launch_occupied_creates_groups_counterexample :
    (launchClusterGroupPhase connOccupied optsLaunch "c").2 = Except.error 1 ∧
    Event.ensuredGroup "c-main" true ∈
      (launchClusterGroupPhase connOccupied optsLaunch "c").1 ∧
    Event.ensuredGroup "c-subordinates" true ∈
      (launchClusterGroupPhase connOccupied optsLaunch "c").1 ∧
    Event.authorized "c-main" (srcGroupRule "c-main") ∈
      (launchClusterGroupPhase connOccupied optsLaunch "c").1 := by
  refine ⟨rfl, ?_, ?_, ?_⟩ <;> decide

/-- C4 amended: the launch controller ensures the two groups and applies
the default rules first, and only then locates existing members and fails
fast with exit status 1 when a worker exists or a main exists without
reuse requested — every event before the locate-and-exit pair is a
group-ensure or rule event, so an occupied launch may still create groups
and rules before refusing. -/
theorem launch_occupied_fail_fast (conn : Conn) (opts : Opts) (cluster_name : String)
    (mains subs : List Instance)
    (hloc : get_existing_cluster conn cluster_name false = Except.ok (mains, subs))
    (hocc : subs ≠ [] ∨ (mains ≠ [] ∧ opts.use_existing_main = false)) :
    (launchClusterGroupPhase conn opts cluster_name).2 = Except.error 1 ∧
    (∃ pre, (launchClusterGroupPhase conn opts cluster_name).1 =
        pre ++ [Event.located, Event.exited 1] ∧
      ∀ e ∈ pre, (∃ n c, e = Event.ensuredGroup n c) ∨
        (∃ g r, e = Event.authorized g r)) := by
  have hcond : (!subs.isEmpty || (!mains.isEmpty && !opts.use_existing_main)) = true := by
    rcases hocc with h | ⟨h1, h2⟩
    · cases subs
      · exact absurd rfl h
      · simp
    · cases mains
      · exact absurd rfl h1
      · simp [h2]
  simp only [launchClusterGroupPhase, gec_applySub, gec_applyMain, gec_gomg, hloc,
    hcond, if_true]
  constructor
  · trivial
  · exact setup_decomp
      (fun e => (∃ n c, e = Event.ensuredGroup n c) ∨ (∃ g r, e = Event.authorized g r))
      _ _ _ _
      (gomg_events_forall
        (fun e => (∃ n c, e = Event.ensuredGroup n c) ∨ (∃ g r, e = Event.authorized g r))
        _ _ (fun c => Or.inl ⟨_, c, rfl⟩))
      (gomg_events_forall
        (fun e => (∃ n c, e = Event.ensuredGroup n c) ∨ (∃ g r, e = Event.authorized g r))
        _ _ (fun c => Or.inl ⟨_, c, rfl⟩))
      (fun e he => Or.inr (applyMainRules_events _ _ _ _ _ e he))
      (fun e he => Or.inr (applySubordinateRules_events _ _ _ _ e he))

/-- C4 witness: the amended theorem at the concrete occupied launch. -/
theorem launch_occupied_fail_fast_witness :
    (launchClusterGroupPhase connOccupied optsLaunch "c").2 = Except.error 1 ∧
    (∃ pre, (launchClusterGroupPhase connOccupied optsLaunch "c").1 =
        pre ++ [Event.located, Event.exited 1] ∧
      ∀ e ∈ pre, (∃ n c, e = Event.ensuredGroup n c) ∨
        (∃ g r, e = Event.authorized g r)) :=
  launch_occupied_fail_fast connOccupied optsLaunch "c" [] [instWorkerOccupied]
    (by rfl) (Or.inl (by simp))

/-- One attempt of the teardown loop records a fetch, then only revoke
events, then the fixed 30-second sleep, then only delete events. -/
def AttemptBlock (b : List Event) : Prop :=
  ∃ names rs ds, b = Event.fetchedGroups names :: rs ++ Event.slept 30 :: ds ∧
    (∀ e ∈ rs, ∃ g r gr, e = Event.revoked g r gr) ∧
    (∀ e ∈ ds, ∃ g ok, e = Event.deletedGroup g ok)

theorem teardownAttempt_block (o : TeardownOracle) (a : Nat) (gn : List String)
    (st : List SecGroup) : AttemptBlock (teardownAttempt o a gn st).1 := by
  unfold teardownAttempt
  refine ⟨_, _, _, rfl, ?_, ?_⟩
  · intro e he
    rw [List.mem_map] at he
    obtain ⟨t, _, rfl⟩ := he
    exact ⟨_, _, _, rfl⟩
  · intro e he
    rw [List.mem_map] at he
    obtain ⟨g, _, rfl⟩ := he
    exact ⟨_, _, rfl⟩

theorem teardownLoop_blocks (o : TeardownOracle) (gn : List String) :
    ∀ k a st, 4 - a ≤ k →
      ∃ blocks : List (List Event), blocks.length ≤ 4 - a ∧
        (∀ b ∈ blocks, AttemptBlock b) ∧
        (teardownLoop o gn a st).1 = blocks.flatten := by
  intro k
  induction k with
  | zero =>
    intro a st h
    refine ⟨[], by simp, by simp, ?_⟩
    unfold teardownLoop
    rw [if_neg (by omega)]
    rfl
  | succ k ih =>
    intro a st h
    by_cases ha : a ≤ 3
    · by_cases hs : (teardownAttempt o a gn st).2.2 = true
      · refine ⟨[(teardownAttempt o a gn st).1], by simp; omega, ?_, ?_⟩
        · intro b hb
          simp at hb
          rw [hb]
          exact teardownAttempt_block o a gn st
        · unfold teardownLoop
          rw [if_pos ha]
          simp [hs]
      · obtain ⟨blocks, hlen, hblocks, htrace⟩ :=
          ih (a + 1) (teardownAttempt o a gn st).2.1 (by omega)
        refine ⟨(teardownAttempt o a gn st).1 :: blocks, ?_, ?_, ?_⟩
        · simp
          omega
        · intro b hb
          rcases List.mem_cons.mp hb with rfl | hb
          · exact teardownAttempt_block o a gn st
          · exact hblocks b hb
        · unfold teardownLoop
          rw [if_pos ha]
          simp only [Bool.not_eq_true] at hs
          simp [hs, htrace]
    · refine ⟨[], by simp, by simp, ?_⟩
      unfold teardownLoop
      rw [if_neg ha]
      rfl

theorem attemptBlock_no_auth (b : List Event) (hb : AttemptBlock b)
    (g : String) (r : Rule) : Event.authorized g r ∉ b := by
  obtain ⟨names, rs, ds, rfl, hrs, hds⟩ := hb
  intro hmem
  simp only [List.mem_cons, List.mem_append] at hmem
  simp only [reduceCtorEq, false_or, or_false] at hmem
  rcases hmem with h | h
  · obtain ⟨g2, r2, gr2, h2⟩ := hrs _ h
    simp at h2
  · obtain ⟨g2, ok2, h2⟩ := hds _ h
    simp at h2

/-- C5: the teardown of the security groups runs at most 3 attempts; every
attempt is a block that revokes rules strictly before it tries any
deletion (with the fixed 30-second delay between the two phases); when the
loop ends unsuccessfully the only event after the attempt blocks is the
partial-failure report (no further retry); and no event of the whole
teardown ever re-adds a rule, so applied revokes are never rolled back. -/
theorem teardown_bounded_phased (o : TeardownOracle) (group_names : List String)
    (st : List SecGroup) :
    ∃ blocks : List (List Event),
      blocks.length ≤ 3 ∧
      (∀ b ∈ blocks, AttemptBlock b) ∧
      (teardownGroups o group_names st).1 = blocks.flatten ++
        (if (teardownGroups o group_names st).2.2 = true then []
         else [Event.reportedTeardownFailure]) ∧
      (∀ e ∈ (teardownGroups o group_names st).1,
        ∀ g r, e ≠ Event.authorized g r) := by
  obtain ⟨blocks, hlen, hblocks, htrace⟩ :=
    teardownLoop_blocks o group_names 3 1 st (by omega)
  have htg : (teardownGroups o group_names st).1 = blocks.flatten ++
      (if (teardownGroups o group_names st).2.2 = true then []
       else [Event.reportedTeardownFailure]) := by
    unfold teardownGroups
    by_cases hs : (teardownLoop o group_names 1 st).2.2 = true <;>
      simp [hs, htrace]
  refine ⟨blocks, by omega, hblocks, htg, ?_⟩
  intro e he g r hcontra
  rw [hcontra] at he
  rw [htg] at he
  rw [List.mem_append] at he
  rcases he with he | he
  · rw [List.mem_flatten] at he
    obtain ⟨b, hb, hmem⟩ := he
    exact attemptBlock_no_auth b (hblocks b hb) g r hmem
  · split at he <;> simp at he

end SparkEC2
